import Mathlib

/-!
Shallow embedding of the ReliefWeb Trello connectors (disasters, topics,
countries managers and the shared date wrapper) and verification of the
claims about their reconciliation logic.

Conventions of the embedding:
* JavaScript `Map` objects are modelled as association lists in insertion
  order: `Map.set` replaces in place or appends, `Map.delete` removes.
* All network calls succeed; the mutating calls a run performs are recorded
  in a trace (`Call`).  The id Trello assigns to a newly created card or
  checklist is supplied by the environment (`createdCardId`,
  `createdChecklistId`).
* JavaScript numbers that matter here are either integers (entity ids,
  desired positions) or the card/check-item positions returned by Trello,
  modelled as rationals.  `Number(parseFloat(x).toFixed())` is
  `jsToFixed0`.
* Values that may be `undefined` in JavaScript are `Option`s; the loose
  string coercions the code relies on (`||`, string-to-number comparison)
  are modelled by `jsOrString`, `jsStringToNumber` and friends.
-/

namespace RWTrello

/-! ### JavaScript string primitives -/

/-- The whitespace characters removed by `String.prototype.trim` (the ASCII
ones, which are the only ones the connectors can produce). -/
def jsWhitespaceChar (c : Char) : Bool :=
  c = ' ' || c = '\t' || c = '\n' || c = '\r' || c = '\x0b' || c = '\x0c'

/-- `String.prototype.trim`. -/
def jsTrim (s : String) : String :=
  String.mk (((s.data.dropWhile jsWhitespaceChar).reverse.dropWhile
    jsWhitespaceChar).reverse)

/-- Split a character list on each maximal run of two or more newlines:
the behaviour of `String.prototype.split(/\n{2,}/)`.  `acc` is the current
paragraph reversed, `nl` counts the newline run currently being read; a
run of length one belongs to the paragraph text, a longer run separates
paragraphs. -/
def splitBlankAux : List Char → List Char → Nat → List (List Char)
  | [], acc, nl =>
    if 2 ≤ nl then [acc.reverse, []]
    else [(List.replicate nl '\n' ++ acc).reverse]
  | c :: rest, acc, nl =>
    if c = '\n' then splitBlankAux rest acc (nl + 1)
    else if 2 ≤ nl then acc.reverse :: splitBlankAux rest [c] 0
    else splitBlankAux rest (c :: (List.replicate nl '\n' ++ acc)) 0

/-- `body.split(/\n{2,}/)` as used to cut a body into paragraphs. -/
def splitParagraphs (s : String) : List String :=
  (splitBlankAux s.data [] 0).map String.mk

/-- `Array.prototype.slice(-n)` for a list of length at least `n`. -/
def takeLast (n : Nat) (l : List α) : List α :=
  l.drop (l.length - n)

/-- Is `pat` the sequence of characters starting at the head of `l`? -/
def charsStartWith : List Char → List Char → Bool
  | _, [] => true
  | [], _ :: _ => false
  | c :: l, p :: pat => c = p && charsStartWith l pat

/-- Index of the first occurrence of `pat` in `l`, or `none`. -/
def charsIndexOf : List Char → List Char → Option Nat
  | [], pat => if pat.isEmpty then some 0 else none
  | c :: l, pat =>
    if charsStartWith (c :: l) pat then some 0
    else match charsIndexOf l pat with
      | some i => some (i + 1)
      | none => none

/-- `String.prototype.indexOf`: index of the first occurrence, or `-1`. -/
def strIndexOf (s pat : String) : Int :=
  match charsIndexOf s.data pat.data with
  | some i => (i : Int)
  | none => -1

/-- Scan for the last occurrence of `pat`, tracking the position `i` of
the head of the remaining list and the best match found so far. -/
def charsLastIndexOfAux (pat : List Char) : List Char → Nat → Option Nat → Option Nat
  | l, i, best =>
    let best := if charsStartWith l pat then some i else best
    match l with
    | [] => best
    | _ :: rest => charsLastIndexOfAux pat rest (i + 1) best

/-- `String.prototype.lastIndexOf`: index of the last occurrence, or `-1`. -/
def strLastIndexOf (s pat : String) : Int :=
  match charsLastIndexOfAux pat.data s.data 0 none with
  | some i => (i : Int)
  | none => -1

/-- `String.prototype.substring(a, b)`: clamps both indices to the string
and swaps them when `a > b`. -/
def strSubstring (s : String) (a b : Int) : String :=
  let len : Int := s.data.length
  let a := (min (max a 0) len).toNat
  let b := (min (max b 0) len).toNat
  if a ≤ b then String.mk ((s.data.drop a).take (b - a))
  else String.mk ((s.data.drop b).take (a - b))

/-- `String.prototype.substring(a)`. -/
def strSubstringFrom (s : String) (a : Int) : String :=
  strSubstring s a s.data.length

/-- `String.prototype.split(sep)` for a non-empty literal separator; the
fuel bounds the number of pieces (the input length suffices). -/
def charsSplitOnFuel (sep : List Char) : Nat → List Char → List (List Char)
  | 0, l => [l]
  | fuel + 1, l =>
    match charsIndexOf l sep with
    | none => [l]
    | some i => l.take i :: charsSplitOnFuel sep fuel (l.drop (i + sep.length))

/-- `String.prototype.split` with a literal non-empty separator. -/
def strSplitOn (s sep : String) : List String :=
  (charsSplitOnFuel sep.data (s.data.length + 1) s.data).map String.mk

/-! ### JavaScript number coercions -/

/-- `Math.round (a / b)` for integers with `b > 0` (round half towards
positive infinity, as JavaScript does). -/
def jsRoundDiv (a b : Int) : Int :=
  Int.fdiv (2 * a + b) (2 * b)

/-- A JavaScript number that may be fractional (a Trello card or check
item position): numerator and positive denominator, not necessarily in
lowest terms. -/
structure JSNum where
  num : Int
  den : Int := 1
  deriving DecidableEq, Repr

/-- The integer `n` as a `JSNum`. -/
def JSNum.int (n : Int) : JSNum := ⟨n, 1⟩

/-- Numeric equality of two `JSNum`s (the JavaScript `==`/`===` on
numbers), by cross multiplication. -/
def JSNum.numEq (p q : JSNum) : Bool :=
  p.num * q.den = q.num * p.den

/-- `Number(parseFloat(x).toFixed())`: round a number to the nearest
integer, ties towards the larger value (`floor (x + 1/2)`). -/
def jsToFixed0 (p : JSNum) : Int :=
  Int.fdiv (2 * p.num + p.den) (2 * p.den)

/-- `Number(s)` restricted to the optionally signed decimal integer
strings produced by `DateWrapper.diffDays`; other strings (which coerce to
`NaN` or to non-integers) are `none`, and every comparison on `none` is
false, as every comparison on `NaN` is. -/
def jsStringToNumber (s : String) : Option Int :=
  let t := jsTrim s
  if t = "" then some 0
  else if t.data.all Char.isDigit && t.data ≠ [] then
    some (t.data.foldl (fun n c => 10 * n + (c.toNat - 48 : Int)) 0)
  else if t.data.head? = some '-' && (t.data.tail.all Char.isDigit) && t.data.tail ≠ [] then
    some (-(t.data.tail.foldl (fun n c => 10 * n + (c.toNat - 48 : Int)) 0))
  else none

/-- The comparison `s > k` between a string and a number: JavaScript
coerces the string to a number first. -/
def jsGtStrNum (s : String) (k : Int) : Bool :=
  match jsStringToNumber s with
  | some v => k < v
  | none => false

/-- `a || b` on strings: `a` unless it is falsy (empty or undefined). -/
def jsOrString (a : Option String) (b : String) : String :=
  match a with
  | none => b
  | some s => if s = "" then b else s

/-! ### Association lists: JavaScript `Map` in insertion order -/

/-- `Map.prototype.get`. -/
def alistLookup : List (String × α) → String → Option α
  | [], _ => none
  | (k0, v) :: rest, k => if k0 = k then some v else alistLookup rest k

/-- `Map.prototype.set`: replace in place, or append. -/
def alistSet : List (String × α) → String → α → List (String × α)
  | [], k, v => [(k, v)]
  | (k0, v0) :: rest, k, v =>
    if k0 = k then (k, v) :: rest else (k0, v0) :: alistSet rest k v

/-- `Map.prototype.delete`. -/
def alistDelete : List (String × α) → String → List (String × α)
  | [], _ => []
  | (k0, v0) :: rest, k =>
    if k0 = k then rest else (k0, v0) :: alistDelete rest k

/-- `new Map([...a, ...b])`. -/
def alistUnion (a b : List (String × α)) : List (String × α) :=
  b.foldl (fun m p => alistSet m p.1 p.2) a

/-! ### URL patterns

`/^https?:\/\/reliefweb\.int\/taxonomy\/term\/\d+$/` (disasters and
countries) and `/^https?:\/\/reliefweb\.int\/node\/\d+$/` (topics). -/

/-- Strip `pre` from the head of `l`, or fail. -/
def charsStripLead : List Char → List Char → Option (List Char)
  | l, [] => some l
  | [], _ :: _ => none
  | c :: l, p :: pre => if c = p then charsStripLead l pre else none

/-- Match `^https?://` followed by `host` followed by one or more digits. -/
def reliefwebUrlTest (host : String) (s : String) : Bool :=
  match charsStripLead s.data "http".data with
  | none => false
  | some rest =>
    let rest := match rest with
      | 's' :: r => r
      | r => r
    match charsStripLead rest ("://" ++ host).data with
    | none => false
    | some digits => !digits.isEmpty && digits.all Char.isDigit

/-- The disaster / country card matching pattern. -/
def taxonomyUrlTest (s : String) : Bool :=
  reliefwebUrlTest "reliefweb.int/taxonomy/term/" s

/-- The topic card matching pattern. -/
def nodeUrlTest (s : String) : Bool :=
  reliefwebUrlTest "reliefweb.int/node/" s

/-! ### Shared board model -/

/-- A Trello label (`name,color` fields are fetched; only `id` and `name`
matter to the diff logic). -/
structure TLabel where
  id : String
  name : String
  deriving DecidableEq, Repr

/-- A Trello list. -/
structure TList where
  id : String
  name : String
  deriving DecidableEq, Repr

/-- A dynamically typed JavaScript value stored in an entity field
(`disaster.lastReport` is sometimes a number, sometimes the string
returned by `diffDays`). -/
inductive JSVal where
  | num (v : Int)
  | str (v : String)
  deriving DecidableEq, Repr

/-- Is the value a string? -/
def JSVal.isStr : JSVal → Bool
  | .str _ => true
  | .num _ => false

/-- `value > k` where `value` may be a number, a string (coerced) or
`undefined` (`none`: every comparison on it is false). -/
def jsGtValNum (v : Option JSVal) (k : Int) : Bool :=
  match v with
  | none => false
  | some (.num n) => k < n
  | some (.str s) => jsGtStrNum s k

/-- A field value in the `data` map assembled for a card `PUT`. -/
inductive FVal where
  | s (v : String)
  | n (v : Int)
  deriving DecidableEq, Repr

/-- One mutating Trello API call. -/
inductive Call where
  | cardUpdate (cardId : String) (data : List (String × FVal))
  | cardCreate (idList urlSource name desc : String) (pos : Int) (idLabels : String)
  | attachmentCreate (cardId url : String)
  | labelAdd (cardId labelId : String)
  | labelRemove (cardId labelId : String)
  | checklistAdd (cardId name : String)
  | checkItemAdd (checklistId name : String) (pos : Int)
  | checkItemUpdate (cardId checklistId checkItemId name : String) (pos : Int)
  | checkItemDelete (checklistId checkItemId : String)
  deriving DecidableEq, Repr

/-- Is the call a card creation? -/
def Call.isCardCreate : Call → Bool
  | .cardCreate _ _ _ _ _ _ => true
  | _ => false

/-- Is the call an attachment creation? -/
def Call.isAttachmentCreate : Call → Bool
  | .attachmentCreate _ _ => true
  | _ => false

/-- Is the call a card field update (`PUT /cards/id`)? -/
def Call.isCardUpdate : Call → Bool
  | .cardUpdate _ _ => true
  | _ => false

/-- The run environment of a manager after `prepareLists` and
`prepareLabels`: the status → list map, the managed name → label map, the
formatted current date, the (opaque) day difference of a stored date
string to now, the status → kind map of the countries configuration, and
the ids Trello hands back for created cards and checklists. -/
structure Env where
  lists : List (String × TList)
  labels : List (String × TLabel)
  statuses : List (String × String) := []
  currentDate : String
  diffDays : Option String → String
  createdCardId : String := "new-card"
  createdChecklistId : String := "new-checklist"

/-- `this.lists.get(status)`; the managers only call it for statuses that
`prepareLists` has configured (JavaScript would throw otherwise). -/
def Env.statusList (env : Env) (status : String) : TList :=
  (alistLookup env.lists status).getD ⟨"", ""⟩

/-- `this.maxIndex`. -/
def maxIndex : Int := 10000000

/-! ### Disaster manager (`src/disasters.js`) -/

/-- A taxonomy reference (`{name}`) on a disaster: its type or country. -/
structure RWRef where
  name : String
  deriving DecidableEq, Repr

/-- A ReliefWeb disaster after `prepareDisaster` and
`getExtraDisasterData`.  The `pos` field is never assigned anywhere in the
source (the prepared field is `statusPosition`), so on every prepared
disaster it is `undefined`; it is kept here because `sortDisasters` reads
it. -/
structure Disaster where
  id : Int
  url : String
  name : String
  status : String
  glide : String
  overview : String
  type : List RWRef
  country : List RWRef
  statusPosition : Int
  lastReport : Option JSVal := none
  pos : Option JSNum := none
  deriving DecidableEq, Repr

/-- `this.profileUpdateHeader`. -/
def profileUpdateHeader : String := "# Last Profile Update\n\n"

/-- `this.profileHeader`. -/
def profileHeader : String := "\n\n# Profile\n\n"

/-- `this.glideHeader`. -/
def glideHeader : String := "\n\n# Glide Number\n\n"

/-- `this.lastReportOlderThan2Months` and friends. -/
def lastReportOlderThan2Months : String := "Last Report > 2 Months"

/-- `this.lastReportOlderThan1Month`. -/
def lastReportOlderThan1Month : String := "Last Report > 1 Month"

/-- `this.lastReportOlderThan1Week`. -/
def lastReportOlderThan1Week : String := "Last Report > 1 Week"

/-- `this.profileUpdateOlderThan3Weeks` and friends. -/
def profileUpdateOlderThan3Weeks : String := "Profile Update > 3 Weeks"

/-- `this.profileUpdateOlderThan2Weeks`. -/
def profileUpdateOlderThan2Weeks : String := "Profile Update > 2 Weeks"

/-- `this.profileUpdateOlderThan1Week` (note the source string says
`Weeks`). -/
def profileUpdateOlderThan1Week : String := "Profile Update > 1 Weeks"

/-- The overview truncation step of `prepareDisaster`: split into
paragraphs, and when there are more than three, push the read-more link
and keep `slice(-4)` of the extended array. -/
def prepareDisasterOverview (url overview : String) : String :=
  if overview ≠ "" then
    let paragraphs := splitParagraphs overview
    if 3 < paragraphs.length then
      let paragraphs := paragraphs ++ ["[Read full description](" ++ url ++ ")"]
      "...\n\n" ++ jsTrim (String.intercalate "\n\n" (takeLast 4 paragraphs))
    else overview
  else ""

/-- The introduction truncation step of `prepareTopic` in
`src/topics.js`, identical up to the link label. -/
def prepareTopicIntroduction (url introduction : String) : String :=
  if introduction ≠ "" then
    let paragraphs := splitParagraphs introduction
    if 3 < paragraphs.length then
      let paragraphs := paragraphs ++ ["[Read full introduction](" ++ url ++ ")"]
      "...\n\n" ++ jsTrim (String.intercalate "\n\n" (takeLast 4 paragraphs))
    else introduction
  else ""

/-- `a.pos === b.pos` where both may be `undefined`. -/
def jsEqOptNum (a b : Option JSNum) : Bool :=
  match a, b with
  | none, none => true
  | some p, some q => p.numEq q
  | _, _ => false

/-- `a.pos < b.pos` where both may be `undefined` (`NaN` comparisons are
false). -/
def jsLtOptNum (a b : Option JSNum) : Bool :=
  match a, b with
  | some p, some q => p.num * q.den < q.num * p.den
  | _, _ => false

/-- The comparator of `sortDisasters` (and of `sortTopics`), verbatim: it
reads `a.pos` and `b.pos`, not the prepared `statusPosition` field. -/
def disasterCompare (a b : Disaster) : Int :=
  if jsEqOptNum a.pos b.pos then
    if a.id < b.id then 1
    else if b.id < a.id then -1
    else 0
  else if jsLtOptNum a.pos b.pos then -1
  else 1

/-- `Array.prototype.sort` with a consistent comparator: the unique
stable order in which the comparator never demands a swap. -/
def jsSortBy (cmp : α → α → Int) (l : List α) : List α :=
  let le := fun a b => cmp a b ≤ 0
  let rec insert (x : α) : List α → List α
    | [] => [x]
    | y :: ys => if le x y then x :: y :: ys else y :: insert x ys
  let rec go : List α → List α
    | [] => []
    | x :: xs => insert x (go xs)
  go l

/-- `this.sortDisasters`. -/
def sortDisasters (disasters : List Disaster) : List Disaster :=
  jsSortBy disasterCompare disasters

/-- A card of the disaster board as fetched (plus the fields that
`prepareCard` extracts from the description). -/
structure DCard where
  id : String
  name : String
  idList : String
  desc : String
  closed : Bool
  pos : JSNum
  labels : List TLabel
  attachments : List String := []
  profileUpdate : Option String := none
  profile : Option String := none
  glide : Option String := none
  deriving DecidableEq, Repr

/-- `this.prepareCard` of the disaster manager: recover the stored
profile-update date, profile text and glide number from the description
by searching for the literal headers. -/
def prepareCardD (card : DCard) : DCard :=
  if card.desc ≠ "" then
    let i1 := strLastIndexOf card.desc profileUpdateHeader
    let i2 := strLastIndexOf card.desc profileHeader
    let i3 := strLastIndexOf card.desc glideHeader
    let l1 : Int := profileUpdateHeader.data.length
    let l2 : Int := profileHeader.data.length
    let l3 : Int := glideHeader.data.length
    if i1 ≠ -1 ∧ i2 ≠ -1 ∧ i3 ≠ -1 then
      { card with
        profileUpdate := some (strSubstring card.desc (i1 + l1) i2)
        profile := some (strSubstring card.desc (i2 + l2) i3)
        glide := some (strSubstringFrom card.desc (i3 + l3)) }
    else card
  else card

/-- Insert the label found under `name` in the managed map, if any
(`const label = this.labels.get(name); if (label) labels.set(...)`). -/
def addManagedLabel (env : Env) (name : String) (labels : List (String × String)) :
    List (String × String) :=
  match alistLookup env.labels name with
  | some label => alistSet labels label.name label.id
  | none => labels

/-- `this.getDisasterLabels`: type and country labels, then the last
report warning label for the single largest threshold exceeded. -/
def getDisasterLabels (env : Env) (d : Disaster) : List (String × String) :=
  let labels := d.type.foldl (fun m item =>
    match alistLookup env.labels item.name with
    | some label => alistSet m item.name label.id
    | none => m) []
  let labels := d.country.foldl (fun m item =>
    match alistLookup env.labels item.name with
    | some label => alistSet m item.name label.id
    | none => m) labels
  if jsGtValNum d.lastReport 60 then addManagedLabel env lastReportOlderThan2Months labels
  else if jsGtValNum d.lastReport 30 then addManagedLabel env lastReportOlderThan1Month labels
  else if jsGtValNum d.lastReport 7 then addManagedLabel env lastReportOlderThan1Week labels
  else labels

/-- `this.getProfileUpdateLabel` (disaster and country managers): the
warning label for the days since the stored profile update date. -/
def getProfileUpdateLabel (env : Env) (lastUpdate : Option String) :
    List (String × String) :=
  let days := env.diffDays lastUpdate
  if jsGtStrNum days 21 then addManagedLabel env profileUpdateOlderThan3Weeks []
  else if jsGtStrNum days 14 then addManagedLabel env profileUpdateOlderThan2Weeks []
  else if jsGtStrNum days 7 then addManagedLabel env profileUpdateOlderThan1Week []
  else []

/-- `this.generateCardDescription` of the disaster manager. -/
def generateCardDescriptionD (env : Env) (d : Disaster) (updateDate : Option String) :
    String :=
  profileUpdateHeader ++ jsOrString updateDate env.currentDate ++
    profileHeader ++ jsOrString (some d.overview) "" ++
    glideHeader ++ d.glide

/-- The removal loop of the disaster manager function `updateCardLabels`: every
card label whose name is not in the running desired map is removed (there
is no managed-map check in this connector); a card label found in the map
is consumed from it instead.  Returns the changed flag, the emitted
calls, and the remaining desired map. -/
def removeOldLabelsD (cardId : String) :
    List TLabel → List (String × String) → Bool × List Call × List (String × String)
  | [], labels => (false, [], labels)
  | l :: rest, labels =>
    if (alistLookup labels l.name).isNone then
      let r := removeOldLabelsD cardId rest labels
      (true, .labelRemove cardId l.id :: r.2.1, r.2.2)
    else
      removeOldLabelsD cardId rest (alistDelete labels l.name)

/-- `this.updateCardLabels` of the disaster manager: desired set from the
disaster and the profile-update warning, diffed against the card. -/
def updateCardLabelsD (env : Env) (card : DCard) (d : Disaster) : Bool × List Call :=
  let labels := alistUnion (getDisasterLabels env d)
    (getProfileUpdateLabel env card.profileUpdate)
  let r := removeOldLabelsD card.id card.labels labels
  let adds := r.2.2.map (fun p => Call.labelAdd card.id p.2)
  (r.1 || !r.2.2.isEmpty, r.2.1 ++ adds)

/-- The `data` map assembled by the disaster manager function `updateCard`
(lines 542-578 of `src/disasters.js`).  Note the literal string
`disaster.name` (in quotes) written as the new name, verbatim from the source. -/
def disastersUpdateCardData (env : Env) (position : Int) (card : DCard)
    (d : Disaster) : List (String × FVal) :=
  let data : List (String × FVal) := []
  let data := if card.idList ≠ (env.statusList d.status).id then
    alistSet data "idList" (.s (env.statusList d.status).id) else data
  let data := if jsToFixed0 card.pos ≠ position then
    alistSet data "pos" (.n position) else data
  let data := if card.closed then alistSet data "closed" (.s "false") else data
  let data := if card.name ≠ d.name then
    alistSet data "name" (.s "disaster.name") else data
  let profileUpdate := if card.profile ≠ some d.overview then
    some env.currentDate else card.profileUpdate
  let data := if card.profile ≠ some d.overview ∨ card.glide ≠ some d.glide then
    alistSet data "desc" (.s (generateCardDescriptionD env d profileUpdate)) else data
  data

/-- The profile-update date held by the card object after `updateCard`
ran (line 571 mutates it before the labels are diffed). -/
def disastersNewProfileUpdate (env : Env) (card : DCard) (d : Disaster) :
    Option String :=
  if card.profile ≠ some d.overview then some env.currentDate else card.profileUpdate

/-- The result of one `updateCard` run. -/
structure CardUpdate where
  data : List (String × FVal)
  trace : List Call
  changed : Bool
  deriving DecidableEq, Repr

/-- `this.updateCard` of the disaster manager: assemble the field diff,
diff the labels (against the card with the freshly mutated profile-update
date), and issue a single card `PUT` when the diff is non-empty. -/
def disastersUpdateCard (env : Env) (position : Int) (card : DCard)
    (d : Disaster) : CardUpdate :=
  let data := disastersUpdateCardData env position card d
  let card1 := { card with profileUpdate := disastersNewProfileUpdate env card d }
  let labelsResult := updateCardLabelsD env card1 d
  let put := if data.isEmpty then [] else [Call.cardUpdate card.id data]
  { data := data
    trace := labelsResult.2 ++ put
    changed := labelsResult.1 || !data.isEmpty }

/-- `this.createCard` of the disaster manager: one card `POST` with all
initial fields, then one attachment `POST` with the canonical URL. -/
def disastersCreateCard (env : Env) (position : Int) (d : Disaster) : List Call :=
  [Call.cardCreate (env.statusList d.status).id "" d.name
      (generateCardDescriptionD env d none) position
      (String.intercalate "," ((getDisasterLabels env d).map (fun p => p.2))),
   Call.attachmentCreate env.createdCardId d.url]

/-- `this.archiveCard`: a `PUT` setting `closed` only when the card is
currently open. -/
def archiveCard (card : DCard) : List Call :=
  if card.closed = false then [Call.cardUpdate card.id [("closed", FVal.s "true")]]
  else []

/-- The matched-card map of `updateBoard`: first attachment matching the
taxonomy URL pattern wins, keyed by that URL. -/
def buildCardMapD (cards : List DCard) : List (String × DCard) :=
  cards.foldl (fun m card =>
    match card.attachments.find? taxonomyUrlTest with
    | some url => alistSet m url (prepareCardD card)
    | none => m) []

/-- The per-disaster loop of `updateBoard`: update matched cards (and
consume them from the map) or create unmatched ones.  Returns the trace
and the leftover map. -/
def processDisasters (env : Env) :
    List Disaster → List (String × DCard) → List Call × List (String × DCard)
  | [], cards => ([], cards)
  | d :: rest, cards =>
    let position := maxIndex - d.id
    match alistLookup cards d.url with
    | some card =>
      let r := disastersUpdateCard env position card d
      let next := processDisasters env rest (alistDelete cards d.url)
      (r.trace ++ next.1, next.2)
    | none =>
      let next := processDisasters env rest cards
      (disastersCreateCard env position d ++ next.1, next.2)

/-- The archival tail of the disaster manager function `updateBoard`: leftover
matched cards are archived only when their current list is one of the
managed status lists. -/
def archivePhaseD (env : Env) (leftovers : List (String × DCard)) : List Call :=
  let managedIds := env.lists.map (fun p => p.2.id)
  leftovers.flatMap (fun p =>
    if managedIds.contains p.2.idList then archiveCard p.2 else [])

/-- `this.updateBoard` of the disaster manager. -/
def disastersUpdateBoard (env : Env) (disasters : List Disaster)
    (boardCards : List DCard) : List Call :=
  let cards := buildCardMapD boardCards
  let r := processDisasters env disasters cards
  r.1 ++ archivePhaseD env r.2

/-- The leftover matched cards of a disaster board run (those whose
entity no longer appears upstream). -/
def disastersLeftovers (env : Env) (disasters : List Disaster)
    (boardCards : List DCard) : List (String × DCard) :=
  (processDisasters env disasters (buildCardMapD boardCards)).2

/-- Semantics of the card `PUT`: the sent fields replace the stored
ones. -/
def applyCardUpdateD (card : DCard) (data : List (String × FVal)) : DCard :=
  { card with
    idList := match alistLookup data "idList" with | some (.s v) => v | _ => card.idList
    pos := match alistLookup data "pos" with | some (.n v) => JSNum.int v | _ => card.pos
    closed := match alistLookup data "closed" with | some (.s v) => v = "true" | _ => card.closed
    name := match alistLookup data "name" with | some (.s v) => v | _ => card.name
    desc := match alistLookup data "desc" with | some (.s v) => v | _ => card.desc }

/-- A card as re-fetched at the start of the next run: the raw fields
persist in Trello, the prepared fields are recomputed from scratch. -/
def DCard.refetch (card : DCard) : DCard :=
  { card with profileUpdate := none, profile := none, glide := none }

/-! ### Topic manager (`src/topics.js`) -/

/-- `this.lastUpdateHeader` of the topic manager. -/
def lastUpdateHeader : String := "# Last Update\n\n"

/-- `this.introductionHeader`. -/
def introductionHeader : String := "\n\n# Introduction\n\n"

/-- `this.lastUpdateOlderThan2Months` and friends. -/
def lastUpdateOlderThan2Months : String := "Last Update > 2 Months"

/-- `this.lastUpdateOlderThan1Month`. -/
def lastUpdateOlderThan1Month : String := "Last Update > 1 Month"

/-- `this.lastUpdateOlderThan1Week`. -/
def lastUpdateOlderThan1Week : String := "Last Update > 1 Week"

/-- A desired checklist entry built by `prepareTopic` from a river,
section or resource link. -/
structure TopicItem where
  url : String
  title : String
  name : String
  position : Int
  deriving DecidableEq, Repr

/-- A ReliefWeb topic after `prepareTopic`. -/
structure Topic where
  id : Int
  url : String
  title : String
  status : String
  featured : Bool
  introduction : String
  dateChanged : String
  lastUpdate : String
  disaster_type : Option (List RWRef) := none
  theme : Option (List RWRef) := none
  statusPosition : Int
  checklists : List (String × List (String × TopicItem)) := []
  deriving DecidableEq, Repr

/-- A Trello check item as fetched. -/
structure CheckItem where
  id : String
  name : String
  pos : JSNum
  deriving DecidableEq, Repr

/-- A Trello checklist as fetched. -/
structure Checklist where
  id : String
  name : String
  checkItems : List CheckItem
  deriving DecidableEq, Repr

/-- A card of the topic board as fetched (plus the fields `prepareCard`
extracts). -/
structure TCard where
  id : String
  name : String
  idList : String
  desc : String
  closed : Bool
  pos : JSNum
  labels : List TLabel
  attachments : List String := []
  checklists : Option (List Checklist) := none
  lastUpdate : Option String := none
  introduction : Option String := none
  deriving DecidableEq, Repr

/-- `this.prepareCard` of the topic manager: split the stored update date
and introduction off the description. -/
def prepareCardT (card : TCard) : TCard :=
  if card.desc ≠ "" then
    let i1 := strLastIndexOf card.desc lastUpdateHeader
    let i2 := strLastIndexOf card.desc introductionHeader
    let l1 : Int := lastUpdateHeader.data.length
    let l2 : Int := introductionHeader.data.length
    if i1 ≠ -1 ∧ i2 ≠ -1 then
      { card with
        lastUpdate := some (strSubstring card.desc (i1 + l1) i2)
        introduction := some (strSubstringFrom card.desc (i2 + l2))
        desc := strSubstring card.desc 0 i1 }
    else card
  else card

/-- `this.getTopicLabels`: type and theme labels, the featured label, the
status label (named after the status list) and the last-update warning
label for the single largest threshold exceeded. -/
def getTopicLabels (env : Env) (topic : Topic) : List (String × String) :=
  let labels := (topic.disaster_type.getD []).foldl (fun m item =>
    match alistLookup env.labels item.name with
    | some label => alistSet m item.name label.id
    | none => m) []
  let labels := (topic.theme.getD []).foldl (fun m item =>
    match alistLookup env.labels item.name with
    | some label => alistSet m item.name label.id
    | none => m) labels
  let labels := if topic.featured = true then addManagedLabel env "Featured" labels
    else labels
  let labels := addManagedLabel env (env.statusList topic.status).name labels
  let days := env.diffDays (some topic.dateChanged)
  if jsGtStrNum days 60 then addManagedLabel env lastUpdateOlderThan2Months labels
  else if jsGtStrNum days 30 then addManagedLabel env lastUpdateOlderThan1Month labels
  else if jsGtStrNum days 7 then addManagedLabel env lastUpdateOlderThan1Week labels
  else labels

/-- `this.generateCardDescription` of the topic manager. -/
def generateCardDescriptionT (description updateDate introduction : String) : String :=
  description ++ lastUpdateHeader ++ updateDate ++ introductionHeader ++
    jsOrString (some introduction) ""

/-- The removal loop of the topic manager function `updateCardLabels`: unlike
the disaster manager it removes a label only when its name is also in the
managed map (`if (this.labels.has(label.name))`). -/
def removeOldLabelsT (env : Env) (cardId : String) :
    List TLabel → List (String × String) → Bool × List Call × List (String × String)
  | [], labels => (false, [], labels)
  | l :: rest, labels =>
    if (alistLookup labels l.name).isNone then
      if (alistLookup env.labels l.name).isSome then
        let r := removeOldLabelsT env cardId rest labels
        (true, .labelRemove cardId l.id :: r.2.1, r.2.2)
      else
        removeOldLabelsT env cardId rest labels
    else
      removeOldLabelsT env cardId rest (alistDelete labels l.name)

/-- `this.updateCardLabels` of the topic manager. -/
def updateCardLabelsT (env : Env) (card : TCard) (topic : Topic) : Bool × List Call :=
  let labels := getTopicLabels env topic
  let r := removeOldLabelsT env card.id card.labels labels
  let adds := r.2.2.map (fun p => Call.labelAdd card.id p.2)
  (r.1 || !r.2.2.isEmpty, r.2.1 ++ adds)

/-- `String.prototype.slice(1)`. -/
def jsSliceDropFirst (s : String) : String :=
  String.mk (s.data.drop 1)

/-- `String.prototype.slice(0, -1)`. -/
def jsSliceDropLast (s : String) : String :=
  String.mk (s.data.take (s.data.length - 1))

/-- The loop of the topic manager function `updateChecklist` over the existing
check items: items identified by the URL inside their markdown link are
updated when title or position changed (and consumed), items without a
desired counterpart are deleted, items without a markdown link are left
alone.  Returns the changed flag, the calls, and the unconsumed desired
items. -/
def updateChecklistLoop (cardId checklistId : String) :
    List CheckItem → List (String × TopicItem) → Bool × List Call × List (String × TopicItem)
  | [], items => (false, [], items)
  | ci :: rest, items =>
    if 0 < strIndexOf ci.name "](" then
      let parts := strSplitOn ci.name "]("
      let title := jsSliceDropFirst (parts.getD 0 "")
      let url := jsSliceDropLast (parts.getD 1 "")
      match alistLookup items url with
      | some item =>
        if item.title ≠ title ∨ ¬ (JSNum.int item.position).numEq ci.pos then
          let r := updateChecklistLoop cardId checklistId rest (alistDelete items url)
          (true, .checkItemUpdate cardId checklistId ci.id item.name item.position :: r.2.1,
            r.2.2)
        else
          let r := updateChecklistLoop cardId checklistId rest (alistDelete items url)
          (r.1, r.2.1, r.2.2)
      | none =>
        let r := updateChecklistLoop cardId checklistId rest items
        (r.1, .checkItemDelete checklistId ci.id :: r.2.1, r.2.2)
    else
      updateChecklistLoop cardId checklistId rest items

/-- `this.updateChecklist` of the topic manager. -/
def updateChecklistT (cardId : String) (checklist : Checklist)
    (items : List (String × TopicItem)) : Bool × List Call :=
  let r := updateChecklistLoop cardId checklist.id checklist.checkItems items
  let adds := r.2.2.map (fun p => Call.checkItemAdd checklist.id p.2.name p.2.position)
  (r.1 || !r.2.2.isEmpty, r.2.1 ++ adds)

/-- `this.addChecklist`: create the checklist on the card, then add every
desired item to the checklist id Trello hands back. -/
def addChecklistT (env : Env) (cardId name : String)
    (items : List (String × TopicItem)) : List Call :=
  Call.checklistAdd cardId name ::
    items.map (fun p => Call.checkItemAdd env.createdChecklistId p.2.name p.2.position)

/-- The loop of `updateCardChecklists` over the desired checklist
groups: create missing checklists, reconcile existing ones. -/
def checklistGroupsLoop (env : Env) (cardId : String)
    (checklists : List (String × Checklist)) :
    List (String × List (String × TopicItem)) → Bool × List Call
  | [] => (false, [])
  | (name, items) :: rest =>
    match alistLookup checklists name with
    | none =>
      let r := checklistGroupsLoop env cardId checklists rest
      (true, addChecklistT env cardId name items ++ r.2)
    | some cl =>
      let u := updateChecklistT cardId cl items
      let r := checklistGroupsLoop env cardId checklists rest
      (u.1 || r.1, u.2 ++ r.2)

/-- `this.updateCardChecklists`: walk the three desired checklist groups,
creating missing checklists and reconciling existing ones. -/
def updateCardChecklistsT (env : Env) (card : TCard) (topic : Topic) : Bool × List Call :=
  let checklists := (card.checklists.getD []).foldl
    (fun m cl => alistSet m cl.name cl) []
  checklistGroupsLoop env card.id checklists topic.checklists

/-- The `data` map assembled by the topic manager function `updateCard` (lines
630-673 of `src/topics.js`): list and position are only written when the
card currently sits in a managed status list. -/
def topicsUpdateCardData (env : Env) (position : Int) (card : TCard)
    (topic : Topic) : List (String × FVal) :=
  let managedList := env.lists.any (fun p => card.idList = p.2.id)
  let data : List (String × FVal) := []
  let data := if managedList ∧ card.idList ≠ (env.statusList topic.status).id then
    alistSet data "idList" (.s (env.statusList topic.status).id) else data
  let data := if managedList ∧ jsToFixed0 card.pos ≠ position then
    alistSet data "pos" (.n position) else data
  let data := if card.closed then alistSet data "closed" (.s "false") else data
  let data := if card.name ≠ topic.title then alistSet data "name" (.s topic.title)
    else data
  let data := if some topic.introduction ≠ card.introduction ∨
      some topic.lastUpdate ≠ card.lastUpdate then
    alistSet data "desc"
      (.s (generateCardDescriptionT card.desc topic.lastUpdate topic.introduction))
    else data
  data

/-- `this.updateCard` of the topic manager. -/
def topicsUpdateCard (env : Env) (position : Int) (card : TCard)
    (topic : Topic) : CardUpdate :=
  let data := topicsUpdateCardData env position card topic
  let lr := updateCardLabelsT env card topic
  let cr := updateCardChecklistsT env card topic
  let put := if data.isEmpty then [] else [Call.cardUpdate card.id data]
  { data := data
    trace := lr.2 ++ cr.2 ++ put
    changed := lr.1 || cr.1 || !data.isEmpty }

/-- `this.createCard` of the topic manager: card `POST`, attachment
`POST`, then populate the checklists of the card Trello handed back
(which has none yet). -/
def topicsCreateCard (env : Env) (position : Int) (topic : Topic) : List Call :=
  let newCard : TCard :=
    { id := env.createdCardId
      name := topic.title
      idList := (env.statusList topic.status).id
      desc := generateCardDescriptionT "" topic.lastUpdate topic.introduction
      closed := false
      pos := JSNum.int position
      labels := [] }
  [Call.cardCreate (env.statusList topic.status).id "" topic.title
      (generateCardDescriptionT "" topic.lastUpdate topic.introduction) position
      (String.intercalate "," ((getTopicLabels env topic).map (fun p => p.2))),
   Call.attachmentCreate env.createdCardId topic.url] ++
    (updateCardChecklistsT env newCard topic).2

/-- The matched-card map of the topic manager function `updateBoard`. -/
def buildCardMapT (cards : List TCard) : List (String × TCard) :=
  cards.foldl (fun m card =>
    match card.attachments.find? nodeUrlTest with
    | some url => alistSet m url (prepareCardT card)
    | none => m) []

/-- The per-topic loop of the topic manager function `updateBoard` (which,
unlike the disaster manager, neither consumes matched cards from the map
nor has an archival phase). -/
def processTopics (env : Env) : List Topic → List (String × TCard) → List Call
  | [], _ => []
  | t :: rest, cards =>
    let position := maxIndex - t.id
    match alistLookup cards t.url with
    | some card => (topicsUpdateCard env position card t).trace ++
        processTopics env rest cards
    | none => topicsCreateCard env position t ++ processTopics env rest cards

/-- `this.updateBoard` of the topic manager. -/
def topicsUpdateBoard (env : Env) (topics : List Topic)
    (boardCards : List TCard) : List Call :=
  processTopics env topics (buildCardMapT boardCards)

/-! ### Country manager (`src/countries.js`) -/

/-- Truthiness of a possibly missing string field. -/
def jsTruthy : Option String → Bool
  | none => false
  | some s => s ≠ ""

/-- `this.ongoingSituation`. -/
def ongoingSituation : String := "Ongoing Situation"

/-- `this.profileChecked`. -/
def profileChecked : String := "Profile Checked"

/-- A ReliefWeb country after `prepareCountry`. -/
structure Country where
  id : Int
  url : String
  name : String
  shortname : Option String := none
  iso3 : Option String := none
  status : String
  description : String
  deriving DecidableEq, Repr

/-- A card of the country board as fetched (plus the fields
`prepareCard` extracts). -/
structure CCard where
  id : String
  name : String
  idList : String
  desc : String
  labels : List TLabel
  attachments : List String := []
  profileUpdate : Option String := none
  description : Option String := none
  deriving DecidableEq, Repr

/-- `this.prepareCard` of the country manager: recover the stored
profile-update date (trimmed) and description; the profile header is
optional here. -/
def prepareCardC (card : CCard) : CCard :=
  if card.desc ≠ "" then
    let i1 := strLastIndexOf card.desc profileUpdateHeader
    let i2 := strLastIndexOf card.desc profileHeader
    let l1 : Int := profileUpdateHeader.data.length
    let l2 : Int := profileHeader.data.length
    if i1 ≠ -1 then
      if i2 ≠ -1 then
        { card with
          profileUpdate := some (jsTrim (strSubstring card.desc (i1 + l1) i2))
          description := some (strSubstringFrom card.desc (i2 + l2)) }
      else
        { card with
          profileUpdate := some (jsTrim (strSubstringFrom card.desc (i1 + l1)))
          description := some "" }
    else card
  else card

/-- `this.getCountryLabels`. -/
def getCountryLabels (env : Env) (country : Country) : List (String × String) :=
  let labels : List (String × String) := []
  let labels := if (alistLookup env.labels ongoingSituation).isSome ∧
      alistLookup env.statuses country.status = some "ongoing" then
    match alistLookup env.labels ongoingSituation with
    | some label => alistSet labels ongoingSituation label.id
    | none => labels
    else labels
  let labels := if (alistLookup env.labels profileChecked).isSome ∧
      country.description ≠ "" then
    match alistLookup env.labels profileChecked with
    | some label => alistSet labels profileChecked label.id
    | none => labels
    else labels
  let labels := match country.iso3 with
    | some iso3 =>
      if iso3 ≠ "" then
        match alistLookup env.labels iso3 with
        | some label => alistSet labels iso3 label.id
        | none => labels
      else labels
    | none => labels
  match country.shortname with
  | some shortname =>
    if shortname ≠ "" then
      match alistLookup env.labels shortname with
      | some label => alistSet labels shortname label.id
      | none => labels
    else labels
  | none => labels

/-- `this.generateCardDescription` of the country manager: always stamps
the current date. -/
def generateCardDescriptionC (env : Env) (country : Country) : String :=
  profileUpdateHeader ++ env.currentDate ++ profileHeader ++
    jsOrString (some country.description) ""

/-- `this.updateCardLabels` of the country manager; its removal loop is
verbatim the topic manager function one, managed-map guard included. -/
def updateCardLabelsC (env : Env) (card : CCard) (country : Country) :
    Bool × List Call :=
  let labels := alistUnion (getCountryLabels env country)
    (getProfileUpdateLabel env card.profileUpdate)
  let r := removeOldLabelsT env card.id card.labels labels
  let adds := r.2.2.map (fun p => Call.labelAdd card.id p.2)
  (r.1 || !r.2.2.isEmpty, r.2.1 ++ adds)

/-- The `data` map assembled by the country manager `updateCard` (lines
371-385 of the source): only the description is ever diffed; there is no
list, position, name, unarchive or archival handling at all. -/
def countriesUpdateCardData (env : Env) (card : CCard) (country : Country) :
    List (String × FVal) :=
  let data : List (String × FVal) := []
  if country.description ≠ "" then
    if card.description ≠ some country.description then
      alistSet data "desc" (.s (generateCardDescriptionC env country))
    else data
  else if card.description = some "" then alistSet data "desc" (.s "")
  else data

/-- `this.updateCard` of the country manager. -/
def countriesUpdateCard (env : Env) (card : CCard) (country : Country) : CardUpdate :=
  let data := countriesUpdateCardData env card country
  let lr := updateCardLabelsC env card country
  let put := if data.isEmpty then [] else [Call.cardUpdate card.id data]
  { data := data
    trace := lr.2 ++ put
    changed := lr.1 || !data.isEmpty }

/-- The matched-card map of the country manager function `updateBoard`. -/
def buildCardMapC (cards : List CCard) : List (String × CCard) :=
  cards.foldl (fun m card =>
    match card.attachments.find? taxonomyUrlTest with
    | some url => alistSet m url (prepareCardC card)
    | none => m) []

/-- The per-country loop of the country manager function `updateBoard`: matched
cards are updated; a country without a matching card is skipped entirely
(no creation). -/
def countriesProcess (env : Env) (cards : List (String × CCard)) :
    List Country → List Call
  | [] => []
  | c :: rest =>
    match alistLookup cards c.url with
    | some card => (countriesUpdateCard env card c).trace ++
        countriesProcess env cards rest
    | none => countriesProcess env cards rest

/-- `this.updateBoard` of the country manager; there is no archival
phase. -/
def countriesUpdateBoard (env : Env) (countries : List Country)
    (boardCards : List CCard) : List Call :=
  countriesProcess env (buildCardMapC boardCards) countries

/-! ### Date wrapper (`src/libs/date.js`) and the last-report buckets -/

/-- `DateWrapper.prototype.unix`: the millisecond timestamp rounded to
seconds. -/
def DateWrapper.unix (ms : Int) : Int :=
  jsRoundDiv ms 1000

/-- `DateWrapper.prototype.diffDays`:
`Math.round((this.unix() - this.clone(date).unix()) / 86400).toFixed()` —
note the result is the string produced by `toFixed()`, not a number. -/
def DateWrapper.diffDays (nowMs dateMs : Int) : String :=
  toString (jsRoundDiv (DateWrapper.unix nowMs - DateWrapper.unix dateMs) 86400)

/-- The bucket assignment of `getExtraDisasterData` (lines 227-239 of
`src/disasters.js`) once the `days` string has been computed: the
comparisons coerce the string to a number, and the final `else` branch
stores the string itself. -/
def lastReportBucket (days : String) : JSVal :=
  if jsGtStrNum days 60 then .num 61
  else if jsGtStrNum days 30 then .num 31
  else if jsGtStrNum days 7 then .num 8
  else .str days

/-! ### Fixtures and trace predicates used by the statements -/

/-- A trace contains no archival call: no card `PUT` whose `closed` field
is the string `true`. -/
def noArchivePut (t : List Call) : Prop :=
  ∀ id data, Call.cardUpdate id data ∈ t →
    alistLookup data "closed" ≠ some (FVal.s "true")

/-- A minimal disaster-board run environment: one managed status list,
no managed labels, a fixed current date, every stored date zero days
old. -/
def sampleEnv : Env :=
  { lists := [("ongoing", ⟨"L1", "Ongoing"⟩)]
    labels := []
    currentDate := "2 Jan 2026"
    diffDays := fun _ => "0" }

/-- A sample prepared disaster. -/
def sampleDisaster : Disaster :=
  { id := 1
    url := "http://reliefweb.int/taxonomy/term/1"
    name := "Flood"
    status := "ongoing"
    glide := "G"
    overview := "P"
    type := []
    country := []
    statusPosition := 1 }

/-- A matching card whose name differs from the disaster name. -/
def sampleCardD : DCard :=
  { id := "c1"
    name := "Old name"
    idList := "L1"
    desc := ""
    closed := false
    pos := JSNum.int 0
    labels := []
    attachments := ["http://reliefweb.int/taxonomy/term/1"] }

/-- The card state after one reconciliation run against
`sampleDisaster`: the `PUT` applied, then re-fetched and re-prepared as
the next run would see it. -/
def sampleCardAfterRun1 : DCard :=
  prepareCardD (DCard.refetch (applyCardUpdateD sampleCardD
    (disastersUpdateCard sampleEnv (maxIndex - sampleDisaster.id) (prepareCardD sampleCardD)
      sampleDisaster).data))

/-- Disaster fixture for the sort claim: low status position, low id. -/
def sortFixtureA : Disaster :=
  { sampleDisaster with id := 1, statusPosition := 1 }

/-- Disaster fixture for the sort claim: high status position, high id. -/
def sortFixtureB : Disaster :=
  { sampleDisaster with id := 2, statusPosition := 5 }

/-- An environment with one managed label named `Old`. -/
def labelEnv : Env :=
  { lists := [("ongoing", ⟨"L1", "Ongoing"⟩)]
    labels := [("Old", ⟨"lo", "Old"⟩)]
    currentDate := "2 Jan 2026"
    diffDays := fun _ => "0" }

/-- A topic-board card carrying the managed label `Old`. -/
def labelCardT : TCard :=
  { id := "c1"
    name := "T"
    idList := "X"
    desc := ""
    closed := false
    pos := JSNum.int 0
    labels := [⟨"lo", "Old"⟩] }

/-- A minimal prepared topic with no desired labels. -/
def labelTopic : Topic :=
  { id := 1
    url := "http://reliefweb.int/node/1"
    title := "T"
    status := "s"
    featured := false
    introduction := ""
    dateChanged := "dc"
    lastUpdate := "lu"
    statusPosition := 0 }

/-! ## Theorems -/

/-- `Map.set` stores the value under its key. -/
theorem alistLookup_set_self (m : List (String × α)) (k : String) (v : α) :
    alistLookup (alistSet m k v) k = some v := by
  induction m with
  | nil => simp [alistSet, alistLookup]
  | cons p rest ih =>
    obtain ⟨k0, v0⟩ := p
    by_cases h : k0 = k <;> simp [alistSet, alistLookup, h, ih]

/-- `Map.set` leaves other keys untouched. -/
theorem alistLookup_set_ne (m : List (String × α)) (k k0 : String) (v : α)
    (h : k0 ≠ k) : alistLookup (alistSet m k0 v) k = alistLookup m k := by
  induction m with
  | nil => simp [alistSet, alistLookup, h]
  | cons p rest ih =>
    obtain ⟨k1, v1⟩ := p
    by_cases h1 : k1 = k0 <;> by_cases h2 : k1 = k <;>
      simp_all [alistSet, alistLookup]

/-- `Map.delete` leaves other keys untouched. -/
theorem alistLookup_delete_ne (m : List (String × α)) (k k2 : String)
    (h : k ≠ k2) : alistLookup (alistDelete m k) k2 = alistLookup m k2 := by
  induction m with
  | nil => rfl
  | cons p rest ih =>
    obtain ⟨k1, v1⟩ := p
    by_cases h1 : k1 = k <;> by_cases h2 : k1 = k2 <;>
      simp_all [alistDelete, alistLookup]

/-- **C1** (code bug).  The spec demands that a second reconciliation run
against the board state produced by the first run performs zero mutating
calls.  The disaster manager violates this: when the card name differed,
the first run writes the literal string `disaster.name` (quoted by
mistake in the source), so the second run still sees a name mismatch and
issues another card `PUT` — here evaluated end to end on a concrete
matched pair, with the second run shown to emit a mutating call. -/
theorem C1_disasters_second_run_issues_mutating_call :
    (disastersUpdateCard sampleEnv (maxIndex - sampleDisaster.id) sampleCardAfterRun1
      sampleDisaster).trace =
      [Call.cardUpdate "c1" [("name", FVal.s "disaster.name")]] ∧
    (disastersUpdateCard sampleEnv (maxIndex - sampleDisaster.id) sampleCardAfterRun1
      sampleDisaster).trace ≠ [] := by
  decide

/-- **C4** (code bug).  `updateCard` of the disaster manager is supposed
to replace a differing card name by the disaster name, but line 566 of
`src/disasters.js` writes the literal string `disaster.name` (in quotes): at a card
named `Old name` matched with a disaster named `Flood`, the update data
carries the literal, not the entity name. -/
theorem C4_disasters_name_update_writes_literal :
    alistLookup (disastersUpdateCardData sampleEnv 9999999 (prepareCardD sampleCardD)
      sampleDisaster) "name" = some (FVal.s "disaster.name") ∧
    sampleDisaster.name = "Flood" ∧ FVal.s "disaster.name" ≠ FVal.s "Flood" := by
  decide

/-- **C7** (code bug).  `sortDisasters` is documented to order by status
list position ascending, id descending; but the comparator reads the
never-assigned `pos` field (always `undefined`, so `a.pos === b.pos` is
always true) and therefore orders by id descending only.  With status
positions 1 and 5 the documented order would be ids `[1, 2]`; the code
produces `[2, 1]`. -/
theorem C7_sort_ignores_status_position :
    (sortDisasters [sortFixtureA, sortFixtureB]).map Disaster.id = [2, 1] ∧
    (sortDisasters [sortFixtureA, sortFixtureB]).map Disaster.statusPosition = [5, 1] ∧
    [(5 : Int), 1] ≠ [1, 5] := by
  decide

/-- **C10** (confirmed).  `DateWrapper.diffDays` returns the string
produced by `toFixed()`; the bucket thresholds of
`getExtraDisasterData` compare that string against numbers by coercion,
and when no threshold is exceeded (a report at most 7 days old) the
`lastReport` field is assigned the string itself, not a number. -/
theorem C10_recent_lastReport_is_the_diffDays_string (nowMs dateMs : Int)
    (h60 : jsGtStrNum (DateWrapper.diffDays nowMs dateMs) 60 = false)
    (h30 : jsGtStrNum (DateWrapper.diffDays nowMs dateMs) 30 = false)
    (h7 : jsGtStrNum (DateWrapper.diffDays nowMs dateMs) 7 = false) :
    lastReportBucket (DateWrapper.diffDays nowMs dateMs) =
      JSVal.str (DateWrapper.diffDays nowMs dateMs) ∧
    (lastReportBucket (DateWrapper.diffDays nowMs dateMs)).isStr = true := by
  unfold lastReportBucket
  simp only [h60, h30, h7]
  simp [JSVal.isStr]

/-- Witness for C10: a report from the very moment of the run sits in the
`"0"` bucket, stored as a string. -/
theorem C10_witness :
    lastReportBucket (DateWrapper.diffDays 0 0) = JSVal.str (DateWrapper.diffDays 0 0) ∧
    (lastReportBucket (DateWrapper.diffDays 0 0)).isStr = true :=
  C10_recent_lastReport_is_the_diffDays_string 0 0 (by decide) (by decide) (by decide)

/-- `slice(-4)` of a list extended by one pushed element keeps the last
three original elements plus the pushed one. -/
theorem takeLast_append_singleton (l : List α) (x : α) (h : 3 < l.length) :
    takeLast 4 (l ++ [x]) = l.drop (l.length - 3) ++ [x] := by
  unfold takeLast
  rw [List.length_append]
  simp only [List.length_cons, List.length_nil]
  rw [List.drop_append_of_le_length (by omega)]
  have harith : l.length + 1 - 4 = l.length - 3 := by omega
  rw [harith]

/-- **C2** (corrected).  The claim says a body of more than three
paragraphs keeps the last **four** paragraphs plus the read-more link;
the code pushes the link first and then keeps `slice(-4)` of the extended
array, i.e. the last **three** original paragraphs plus the link.  This
theorem proves the corrected statement for both the disaster overview and
the topic introduction, together with the unchanged-below-four-paragraphs
half of the claim. -/
theorem C2_truncation_keeps_last_three_paragraphs_plus_link (url body : String) :
    (3 < (splitParagraphs body).length →
      prepareDisasterOverview url body =
        "...\n\n" ++ jsTrim (String.intercalate "\n\n"
          ((splitParagraphs body).drop ((splitParagraphs body).length - 3) ++
            ["[Read full description](" ++ url ++ ")"])) ∧
      prepareTopicIntroduction url body =
        "...\n\n" ++ jsTrim (String.intercalate "\n\n"
          ((splitParagraphs body).drop ((splitParagraphs body).length - 3) ++
            ["[Read full introduction](" ++ url ++ ")"]))) ∧
    ((splitParagraphs body).length ≤ 3 →
      prepareDisasterOverview url body = body ∧
      prepareTopicIntroduction url body = body) := by
  have hempty : splitParagraphs "" = [""] := by decide
  constructor
  · intro h
    have hne : ¬ body = "" := by
      intro hb
      rw [hb, hempty] at h
      simp at h
    constructor
    · unfold prepareDisasterOverview
      rw [if_pos hne, if_pos h]
      simp only [takeLast_append_singleton _ _ h]
    · unfold prepareTopicIntroduction
      rw [if_pos hne, if_pos h]
      simp only [takeLast_append_singleton _ _ h]
  · intro h
    by_cases hb : body = ""
    · subst hb
      constructor
      · unfold prepareDisasterOverview
        simp
      · unfold prepareTopicIntroduction
        simp
    · have hgt : ¬ 3 < (splitParagraphs body).length := by omega
      constructor
      · unfold prepareDisasterOverview
        rw [if_pos hb, if_neg hgt]
      · unfold prepareTopicIntroduction
        rw [if_pos hb, if_neg hgt]

/-- Counterexample for C2 as stated: on the five-paragraph body
`a,b,c,d,e` the claim predicts `...` + `b c d e` + link, but the code
keeps only `c d e` plus the link. -/
theorem C2_counterexample :
    prepareDisasterOverview "u" "a\n\nb\n\nc\n\nd\n\ne" =
      "...\n\nc\n\nd\n\ne\n\n[Read full description](u)" ∧
    prepareDisasterOverview "u" "a\n\nb\n\nc\n\nd\n\ne" ≠
      "...\n\nb\n\nc\n\nd\n\ne\n\n[Read full description](u)" := by
  decide

/-- Witness for C2 discharging the more-than-three-paragraphs
hypothesis at a concrete body. -/
theorem C2_witness :
    prepareDisasterOverview "u" "a\n\nb\n\nc\n\nd\n\ne" =
      "...\n\n" ++ jsTrim (String.intercalate "\n\n"
        ((splitParagraphs "a\n\nb\n\nc\n\nd\n\ne").drop
          ((splitParagraphs "a\n\nb\n\nc\n\nd\n\ne").length - 3) ++
          ["[Read full description](u)"])) :=
  ((C2_truncation_keeps_last_three_paragraphs_plus_link "u"
    "a\n\nb\n\nc\n\nd\n\ne").1 (by decide)).1

/-- Every removal emitted by the guarded removal loop shared by the topic
and country managers names a card label whose name is in the managed map
and absent from the desired map the loop started with.  The loop checks
the running desired map (earlier card labels consume their entries), but
when the card labels have pairwise distinct names — every real Trello
card does, since label names are unique per board — a consumed entry
never shares the key looked up later, so absence from the running map is
absence from the initial desired map. -/
theorem removeOldLabelsT_only_managed (env : Env) (cardId : String) :
    ∀ (ls : List TLabel) (labels : List (String × String)) (cid lid : String),
    (ls.map TLabel.name).Nodup →
    Call.labelRemove cid lid ∈ (removeOldLabelsT env cardId ls labels).2.1 →
    ∃ l ∈ ls, l.id = lid ∧ (alistLookup env.labels l.name).isSome ∧
      alistLookup labels l.name = none := by
  intro ls
  induction ls with
  | nil =>
    intro labels cid lid hnd h
    simp [removeOldLabelsT] at h
  | cons l rest ih =>
    intro labels cid lid hnd h
    have hnd2 : (rest.map TLabel.name).Nodup := by
      simp only [List.map_cons, List.nodup_cons] at hnd
      exact hnd.2
    have hnotin : l.name ∉ rest.map TLabel.name := by
      simp only [List.map_cons, List.nodup_cons] at hnd
      exact hnd.1
    unfold removeOldLabelsT at h
    by_cases h1 : (alistLookup labels l.name).isNone
    · rw [if_pos h1] at h
      by_cases h2 : (alistLookup env.labels l.name).isSome
      · rw [if_pos h2] at h
        rcases List.mem_cons.mp h with h | h
        · refine ⟨l, List.mem_cons_self l rest, ?_, h2,
            Option.isNone_iff_eq_none.mp h1⟩
          injection h with hc hl
          exact hl.symm
        · obtain ⟨l2, hm, hi, hs, habs⟩ := ih labels cid lid hnd2 h
          exact ⟨l2, List.mem_cons_of_mem l hm, hi, hs, habs⟩
      · rw [if_neg h2] at h
        obtain ⟨l2, hm, hi, hs, habs⟩ := ih labels cid lid hnd2 h
        exact ⟨l2, List.mem_cons_of_mem l hm, hi, hs, habs⟩
    · rw [if_neg h1] at h
      obtain ⟨l2, hm, hi, hs, habs⟩ := ih (alistDelete labels l.name) cid lid hnd2 h
      have hne : l.name ≠ l2.name := by
        intro hEq
        exact hnotin (hEq ▸ List.mem_map.mpr ⟨l2, hm, rfl⟩)
      rw [alistLookup_delete_ne labels l.name l2.name hne] at habs
      exact ⟨l2, List.mem_cons_of_mem l hm, hi, hs, habs⟩

/-- A removal call is never among the label additions. -/
theorem labelRemove_not_mem_adds (cid lid cardId : String)
    (labels : List (String × String)) :
    Call.labelRemove cid lid ∉ labels.map (fun p => Call.labelAdd cardId p.2) := by
  intro h
  obtain ⟨p, _, hp⟩ := List.mem_map.mp h
  exact Call.noConfusion hp

/-- **C3** (corrected).  For the topic and country managers the claim
holds: a removal call always names a card label that is in the managed
map **and** absent from the desired label set computed for the entity
(stated for cards with pairwise distinct label names, which the
board-level uniqueness of label names guarantees; the code checks the
running desired map, which then agrees with the computed set at that
key).  The claim is false of the disaster manager, which has no
managed-map guard at all (see the counterexample). -/
theorem C3_topics_countries_remove_only_managed_labels (env : Env)
    (tcard : TCard) (topic : Topic) (ccard : CCard) (country : Country)
    (cid lid : String) :
    ((tcard.labels.map TLabel.name).Nodup →
      Call.labelRemove cid lid ∈ (updateCardLabelsT env tcard topic).2 →
      ∃ l ∈ tcard.labels, l.id = lid ∧ (alistLookup env.labels l.name).isSome ∧
        alistLookup (getTopicLabels env topic) l.name = none) ∧
    ((ccard.labels.map TLabel.name).Nodup →
      Call.labelRemove cid lid ∈ (updateCardLabelsC env ccard country).2 →
      ∃ l ∈ ccard.labels, l.id = lid ∧ (alistLookup env.labels l.name).isSome ∧
        alistLookup (alistUnion (getCountryLabels env country)
          (getProfileUpdateLabel env ccard.profileUpdate)) l.name = none) := by
  constructor
  · intro hnd h
    unfold updateCardLabelsT at h
    rcases List.mem_append.mp h with h | h
    · exact removeOldLabelsT_only_managed env tcard.id tcard.labels _ cid lid hnd h
    · exact absurd h (labelRemove_not_mem_adds cid lid tcard.id _)
  · intro hnd h
    unfold updateCardLabelsC at h
    rcases List.mem_append.mp h with h | h
    · exact removeOldLabelsT_only_managed env ccard.id ccard.labels _ cid lid hnd h
    · exact absurd h (labelRemove_not_mem_adds cid lid ccard.id _)

/-- Counterexample for C3 as stated: the disaster manager removes the
label `Custom` from a card although `Custom` is not in the managed label
map of the run. -/
theorem C3_counterexample :
    Call.labelRemove "c1" "lx" ∈
      (updateCardLabelsD sampleEnv { sampleCardD with labels := [⟨"lx", "Custom"⟩] }
        sampleDisaster).2 ∧
    alistLookup sampleEnv.labels "Custom" = none := by
  decide

/-- Witness for C3: the topic manager does remove the managed label
`Old`, and the theorem then locates it in the managed map and confirms it
is absent from the desired set. -/
theorem C3_witness :
    ∃ l ∈ labelCardT.labels, l.id = "lo" ∧
      (alistLookup labelEnv.labels l.name).isSome ∧
      alistLookup (getTopicLabels labelEnv labelTopic) l.name = none :=
  (C3_topics_countries_remove_only_managed_labels labelEnv labelCardT labelTopic
    { id := "c2", name := "C", idList := "X", desc := "", labels := [] }
    { id := 1, url := "u", name := "N", status := "s", description := "" }
    "c1" "lo").1 (by decide) (by decide)

/-- **C5** (corrected).  The managed-list guard on list and position
writes exists only in the topic manager: when a topic card sits in an
unmanaged list, neither `idList` nor `pos` is ever written, the body diff
is unaffected, and the label diff does not depend on the list at all.
The disaster manager has no such guard (see the counterexample). -/
theorem C5_topics_unmanaged_list_never_moved (env : Env) (position : Int)
    (card : TCard) (topic : Topic)
    (h : env.lists.any (fun p => card.idList = p.2.id) = false) :
    alistLookup (topicsUpdateCardData env position card topic) "idList" = none ∧
    alistLookup (topicsUpdateCardData env position card topic) "pos" = none ∧
    ((some topic.introduction ≠ card.introduction ∨
        some topic.lastUpdate ≠ card.lastUpdate) →
      (alistLookup (topicsUpdateCardData env position card topic) "desc").isSome) ∧
    (∀ x, updateCardLabelsT env { card with idList := x } topic =
      updateCardLabelsT env card topic) := by
  unfold topicsUpdateCardData
  rw [h]
  refine ⟨?_, ?_, fun h3 => ?_, fun x => rfl⟩ <;>
    · simp only [Bool.false_eq_true, false_and, if_false]
      split_ifs <;>
        simp_all [alistLookup_set_self, alistLookup_set_ne, alistLookup]

/-- Counterexample for C5 as stated: the disaster manager writes a new
`idList` (and position) for a card sitting in the unmanaged list `X`. -/
theorem C5_counterexample :
    alistLookup (disastersUpdateCardData sampleEnv 9999999
      { sampleCardD with idList := "X" } sampleDisaster) "idList" =
      some (FVal.s "L1") ∧
    sampleEnv.lists.any (fun p => "X" = p.2.id) = false := by
  decide

/-- Witness for C5 at a topic card in the unmanaged list `X`. -/
theorem C5_witness :
    alistLookup (topicsUpdateCardData labelEnv 9999999 labelCardT labelTopic)
      "idList" = none ∧
    alistLookup (topicsUpdateCardData labelEnv 9999999 labelCardT labelTopic)
      "pos" = none :=
  let r := C5_topics_unmanaged_list_never_moved labelEnv 9999999 labelCardT
    labelTopic (by decide)
  ⟨r.1, r.2.1⟩

/-- The `desc` entry of the disaster manager function update data: present
exactly when overview or glide changed, and generated with the mutated
profile-update date. -/
theorem disasters_desc_lookup (env : Env) (position : Int) (card : DCard)
    (d : Disaster) :
    alistLookup (disastersUpdateCardData env position card d) "desc" =
      if card.profile ≠ some d.overview ∨ card.glide ≠ some d.glide then
        some (FVal.s (generateCardDescriptionD env d
          (disastersNewProfileUpdate env card d)))
      else none := by
  unfold disastersUpdateCardData disastersNewProfileUpdate
  split_ifs <;>
    simp_all [alistLookup_set_self, alistLookup_set_ne, alistLookup]

/-- **C9** (corrected).  When the overview changed, the regenerated body
carries the fresh current date; when the overview is unchanged but
another description section (the glide number) changed, the description
is regenerated with the stored `card.profileUpdate` date — but through
the `updateDate || currentDate` fallback of `generateCardDescription`, so
an *empty* stored date is replaced by the current date rather than
written back (see the counterexample); when nothing changed no `desc`
field is written at all. -/
theorem C9_timestamp_advances_only_on_overview_change (env : Env)
    (position : Int) (card : DCard) (d : Disaster) :
    (card.profile ≠ some d.overview →
      alistLookup (disastersUpdateCardData env position card d) "desc" =
        some (FVal.s (generateCardDescriptionD env d (some env.currentDate)))) ∧
    (card.profile = some d.overview → card.glide ≠ some d.glide →
      alistLookup (disastersUpdateCardData env position card d) "desc" =
        some (FVal.s (generateCardDescriptionD env d card.profileUpdate))) ∧
    (card.profile = some d.overview → card.glide = some d.glide →
      alistLookup (disastersUpdateCardData env position card d) "desc" = none) := by
  refine ⟨fun h1 => ?_, fun h1 h2 => ?_, fun h1 h2 => ?_⟩ <;>
    rw [disasters_desc_lookup]
  · rw [if_pos (Or.inl h1)]
    unfold disastersNewProfileUpdate
    rw [if_pos h1]
  · rw [if_pos (Or.inr h2)]
    unfold disastersNewProfileUpdate
    rw [if_neg (by simp [h1])]
  · rw [if_neg (by simp [h1, h2])]

/-- Counterexample for C9 as stated: a card whose stored profile-update
date is the empty string and whose glide (not overview) changed gets the
current date written, not the stored (empty) date. -/
theorem C9_counterexample :
    alistLookup (disastersUpdateCardData sampleEnv 10000000
      { sampleCardD with
        name := "Flood", pos := JSNum.int 10000000,
        profileUpdate := some "", profile := some "P", glide := some "G" }
      { sampleDisaster with glide := "H" }) "desc" =
      some (FVal.s
        "# Last Profile Update\n\n2 Jan 2026\n\n# Profile\n\nP\n\n# Glide Number\n\nH") ∧
    ("# Last Profile Update\n\n2 Jan 2026\n\n# Profile\n\nP\n\n# Glide Number\n\nH" ≠
      "# Last Profile Update\n\n\n\n# Profile\n\nP\n\n# Glide Number\n\nH") := by
  decide

/-- Witness for C9: with a non-empty stored date and only the glide
changed, the stored date is written back. -/
theorem C9_witness :
    alistLookup (disastersUpdateCardData sampleEnv 10000000
      { sampleCardD with
        name := "Flood", pos := JSNum.int 10000000,
        profileUpdate := some "1 Jan 2020", profile := some "P", glide := some "G" }
      { sampleDisaster with glide := "H" }) "desc" =
      some (FVal.s (generateCardDescriptionD sampleEnv
        { sampleDisaster with glide := "H" } (some "1 Jan 2020"))) :=
  ((C9_timestamp_advances_only_on_overview_change sampleEnv 10000000
    { sampleCardD with
      name := "Flood", pos := JSNum.int 10000000,
      profileUpdate := some "1 Jan 2020", profile := some "P", glide := some "G" }
    { sampleDisaster with glide := "H" }).2.1 (by decide) (by decide))

/-- The check-item reconciliation loop emits neither card creations nor
attachment creations nor card updates. -/
theorem updateChecklistLoop_no_card_calls (cid clid : String) :
    ∀ (cis : List CheckItem) (items : List (String × TopicItem)),
    ∀ c ∈ (updateChecklistLoop cid clid cis items).2.1,
      c.isCardCreate = false ∧ c.isAttachmentCreate = false ∧ c.isCardUpdate = false := by
  intro cis
  induction cis with
  | nil =>
    intro items c hc
    simp [updateChecklistLoop] at hc
  | cons ci rest ih =>
    intro items c hc
    simp only [updateChecklistLoop] at hc
    split at hc
    · split at hc
      · split at hc
        · rcases List.mem_cons.mp hc with h | h
          · subst h
            exact ⟨rfl, rfl, rfl⟩
          · exact ih _ c h
        · exact ih _ c hc
      · rcases List.mem_cons.mp hc with h | h
        · subst h
          exact ⟨rfl, rfl, rfl⟩
        · exact ih _ c h
    · exact ih _ c hc

/-- `updateChecklist` emits only checklist-level calls. -/
theorem updateChecklistT_no_card_calls (cid : String) (cl : Checklist)
    (items : List (String × TopicItem)) :
    ∀ c ∈ (updateChecklistT cid cl items).2,
      c.isCardCreate = false ∧ c.isAttachmentCreate = false ∧ c.isCardUpdate = false := by
  intro c hc
  unfold updateChecklistT at hc
  rcases List.mem_append.mp hc with h | h
  · exact updateChecklistLoop_no_card_calls cid cl.id cl.checkItems items c h
  · obtain ⟨p, _, hp⟩ := List.mem_map.mp h
    subst hp
    exact ⟨rfl, rfl, rfl⟩

/-- `addChecklist` emits only checklist-level calls. -/
theorem addChecklistT_no_card_calls (env : Env) (cardId name : String)
    (items : List (String × TopicItem)) :
    ∀ c ∈ addChecklistT env cardId name items,
      c.isCardCreate = false ∧ c.isAttachmentCreate = false ∧ c.isCardUpdate = false := by
  intro c hc
  unfold addChecklistT at hc
  rcases List.mem_cons.mp hc with h | h
  · subst h
    exact ⟨rfl, rfl, rfl⟩
  · obtain ⟨p, _, hp⟩ := List.mem_map.mp h
    subst hp
    exact ⟨rfl, rfl, rfl⟩

/-- The checklist-group loop emits only checklist-level calls. -/
theorem checklistGroupsLoop_no_card_calls (env : Env) (cardId : String)
    (checklists : List (String × Checklist)) :
    ∀ (groups : List (String × List (String × TopicItem))),
    ∀ c ∈ (checklistGroupsLoop env cardId checklists groups).2,
      c.isCardCreate = false ∧ c.isAttachmentCreate = false ∧ c.isCardUpdate = false := by
  intro groups
  induction groups with
  | nil =>
    intro c hc
    simp [checklistGroupsLoop] at hc
  | cons g rest ih =>
    intro c hc
    obtain ⟨name, items⟩ := g
    simp only [checklistGroupsLoop] at hc
    split at hc
    · rcases List.mem_append.mp hc with h | h
      · exact addChecklistT_no_card_calls env cardId name items c h
      · exact ih c h
    · rcases List.mem_append.mp hc with h | h
      · exact updateChecklistT_no_card_calls cardId _ items c h
      · exact ih c h

/-- `updateCardChecklists` emits only checklist-level calls. -/
theorem updateCardChecklistsT_no_card_calls (env : Env) (card : TCard)
    (topic : Topic) :
    ∀ c ∈ (updateCardChecklistsT env card topic).2,
      c.isCardCreate = false ∧ c.isAttachmentCreate = false ∧ c.isCardUpdate = false := by
  intro c hc
  unfold updateCardChecklistsT at hc
  exact checklistGroupsLoop_no_card_calls env card.id _ topic.checklists c hc

/-- The unguarded removal loop of the disaster manager emits only label
removals. -/
theorem removeOldLabelsD_no_cardUpdate (cardId : String) :
    ∀ (ls : List TLabel) (labels : List (String × String)),
    ∀ c ∈ (removeOldLabelsD cardId ls labels).2.1, c.isCardUpdate = false := by
  intro ls
  induction ls with
  | nil =>
    intro labels c hc
    simp [removeOldLabelsD] at hc
  | cons l rest ih =>
    intro labels c hc
    simp only [removeOldLabelsD] at hc
    split at hc
    · rcases List.mem_cons.mp hc with h | h
      · subst h
        rfl
      · exact ih _ c h
    · exact ih _ c hc

/-- The guarded removal loop of the topic and country managers emits only
label removals. -/
theorem removeOldLabelsT_no_cardUpdate (env : Env) (cardId : String) :
    ∀ (ls : List TLabel) (labels : List (String × String)),
    ∀ c ∈ (removeOldLabelsT env cardId ls labels).2.1, c.isCardUpdate = false := by
  intro ls
  induction ls with
  | nil =>
    intro labels c hc
    simp [removeOldLabelsT] at hc
  | cons l rest ih =>
    intro labels c hc
    simp only [removeOldLabelsT] at hc
    split at hc
    · split at hc
      · rcases List.mem_cons.mp hc with h | h
        · subst h
          rfl
        · exact ih _ c h
      · exact ih _ c hc
    · exact ih _ c hc

/-- The disaster manager function label diff never updates card fields. -/
theorem updateCardLabelsD_no_cardUpdate (env : Env) (card : DCard) (d : Disaster) :
    ∀ c ∈ (updateCardLabelsD env card d).2, c.isCardUpdate = false := by
  intro c hc
  unfold updateCardLabelsD at hc
  rcases List.mem_append.mp hc with h | h
  · exact removeOldLabelsD_no_cardUpdate card.id card.labels _ c h
  · obtain ⟨p, _, hp⟩ := List.mem_map.mp h
    subst hp
    rfl

/-- The topic manager function label diff never updates card fields. -/
theorem updateCardLabelsT_no_cardUpdate (env : Env) (card : TCard) (topic : Topic) :
    ∀ c ∈ (updateCardLabelsT env card topic).2, c.isCardUpdate = false := by
  intro c hc
  unfold updateCardLabelsT at hc
  rcases List.mem_append.mp hc with h | h
  · exact removeOldLabelsT_no_cardUpdate env card.id card.labels _ c h
  · obtain ⟨p, _, hp⟩ := List.mem_map.mp h
    subst hp
    rfl

/-- The `closed` entry of a disaster card update is only ever the string
`false`. -/
theorem disasters_closed_lookup (env : Env) (position : Int) (card : DCard)
    (d : Disaster) :
    alistLookup (disastersUpdateCardData env position card d) "closed" = none ∨
    alistLookup (disastersUpdateCardData env position card d) "closed" =
      some (FVal.s "false") := by
  unfold disastersUpdateCardData
  split_ifs <;>
    simp_all [alistLookup_set_self, alistLookup_set_ne, alistLookup]

/-- `Map.get` distributes over a conditional map. -/
theorem alistLookup_ite {α} (c : Prop) [Decidable c] (a b : List (String × α))
    (k : String) :
    alistLookup (if c then a else b) k =
      if c then alistLookup a k else alistLookup b k := by
  split <;> rfl

/-- The `closed` entry of a topic card update is only ever the string
`false`. -/
theorem topics_closed_lookup (env : Env) (position : Int) (card : TCard)
    (topic : Topic) :
    alistLookup (topicsUpdateCardData env position card topic) "closed" = none ∨
    alistLookup (topicsUpdateCardData env position card topic) "closed" =
      some (FVal.s "false") := by
  unfold topicsUpdateCardData
  by_cases hc : card.closed
  · right
    simp [hc, alistLookup_ite, alistLookup_set_self, alistLookup_set_ne, alistLookup]
  · left
    simp [hc, alistLookup_ite, alistLookup_set_self, alistLookup_set_ne, alistLookup]

theorem noArchivePut_nil : noArchivePut [] := by
  intro id data h
  simp at h

theorem noArchivePut_append {a b : List Call} (h1 : noArchivePut a)
    (h2 : noArchivePut b) : noArchivePut (a ++ b) := by
  intro id data h
  rcases List.mem_append.mp h with h | h
  · exact h1 id data h
  · exact h2 id data h

theorem noArchivePut_of_no_cardUpdate {t : List Call}
    (h : ∀ c ∈ t, c.isCardUpdate = false) : noArchivePut t := by
  intro id data hm
  have := h _ hm
  simp [Call.isCardUpdate] at this

/-- A disaster card update run never emits an archival `PUT`. -/
theorem disastersUpdateCard_noArchivePut (env : Env) (position : Int)
    (card : DCard) (d : Disaster) :
    noArchivePut (disastersUpdateCard env position card d).trace := by
  unfold disastersUpdateCard
  apply noArchivePut_append
  · exact noArchivePut_of_no_cardUpdate (updateCardLabelsD_no_cardUpdate env _ d)
  · split
    · exact noArchivePut_nil
    · intro id data hm
      rcases List.mem_cons.mp hm with h | h
      · injection h with h1 h2
        subst h2
        rcases disasters_closed_lookup env position card d with h3 | h3 <;>
          simp [h3]
      · simp at h

/-- A topic card update run never emits an archival `PUT`. -/
theorem topicsUpdateCard_noArchivePut (env : Env) (position : Int)
    (card : TCard) (topic : Topic) :
    noArchivePut (topicsUpdateCard env position card topic).trace := by
  unfold topicsUpdateCard
  apply noArchivePut_append
  · apply noArchivePut_append
    · exact noArchivePut_of_no_cardUpdate (updateCardLabelsT_no_cardUpdate env _ topic)
    · exact noArchivePut_of_no_cardUpdate (fun c hc =>
        (updateCardChecklistsT_no_card_calls env card topic c hc).2.2)
  · split
    · exact noArchivePut_nil
    · intro id data hm
      rcases List.mem_cons.mp hm with h | h
      · injection h with h1 h2
        subst h2
        rcases topics_closed_lookup env position card topic with h3 | h3 <;>
          simp [h3]
      · simp at h

/-- Creating a disaster card never emits a card `PUT`. -/
theorem disastersCreateCard_noArchivePut (env : Env) (position : Int)
    (d : Disaster) : noArchivePut (disastersCreateCard env position d) := by
  apply noArchivePut_of_no_cardUpdate
  intro c hc
  unfold disastersCreateCard at hc
  rcases List.mem_cons.mp hc with h | h
  · subst h; rfl
  · rcases List.mem_cons.mp h with h | h
    · subst h; rfl
    · simp at h

/-- Creating a topic card never emits a card `PUT`. -/
theorem topicsCreateCard_noArchivePut (env : Env) (position : Int)
    (topic : Topic) : noArchivePut (topicsCreateCard env position topic) := by
  apply noArchivePut_of_no_cardUpdate
  intro c hc
  unfold topicsCreateCard at hc
  rcases List.mem_append.mp hc with h | h
  · rcases List.mem_cons.mp h with h | h
    · subst h; rfl
    · rcases List.mem_cons.mp h with h | h
      · subst h; rfl
      · simp at h
  · exact (updateCardChecklistsT_no_card_calls env _ topic c h).2.2

/-- The update-or-create phase of the disaster board run never emits an
archival `PUT`. -/
theorem processDisasters_noArchivePut (env : Env) :
    ∀ (ds : List Disaster) (cards : List (String × DCard)),
    noArchivePut (processDisasters env ds cards).1 := by
  intro ds
  induction ds with
  | nil =>
    intro cards
    exact noArchivePut_nil
  | cons d rest ih =>
    intro cards
    simp only [processDisasters]
    split
    · exact noArchivePut_append (disastersUpdateCard_noArchivePut env _ _ d) (ih _)
    · exact noArchivePut_append (disastersCreateCard_noArchivePut env _ d) (ih _)

/-- The whole topic board run never emits an archival `PUT`. -/
theorem processTopics_noArchivePut (env : Env) :
    ∀ (topics : List Topic) (cards : List (String × TCard)),
    noArchivePut (processTopics env topics cards) := by
  intro topics
  induction topics with
  | nil =>
    intro cards
    exact noArchivePut_nil
  | cons t rest ih =>
    intro cards
    simp only [processTopics]
    split
    · exact noArchivePut_append (topicsUpdateCard_noArchivePut env _ _ t) (ih _)
    · exact noArchivePut_append (topicsCreateCard_noArchivePut env _ t) (ih _)

/-- The country manager label diff never updates card fields. -/
theorem updateCardLabelsC_no_cardUpdate (env : Env) (card : CCard)
    (country : Country) :
    ∀ c ∈ (updateCardLabelsC env card country).2, c.isCardUpdate = false := by
  intro c hc
  unfold updateCardLabelsC at hc
  rcases List.mem_append.mp hc with h | h
  · exact removeOldLabelsT_no_cardUpdate env card.id card.labels _ c h
  · obtain ⟨p, _, hp⟩ := List.mem_map.mp h
    subst hp
    rfl

/-- A country card update never touches the `closed` field at all. -/
theorem countries_closed_lookup (env : Env) (card : CCard) (country : Country) :
    alistLookup (countriesUpdateCardData env card country) "closed" = none := by
  unfold countriesUpdateCardData
  simp [alistLookup_ite, alistLookup_set_ne, alistLookup]

/-- A country card update run never emits an archival `PUT`. -/
theorem countriesUpdateCard_noArchivePut (env : Env) (card : CCard)
    (country : Country) :
    noArchivePut (countriesUpdateCard env card country).trace := by
  unfold countriesUpdateCard
  apply noArchivePut_append
  · exact noArchivePut_of_no_cardUpdate (updateCardLabelsC_no_cardUpdate env _ country)
  · split
    · exact noArchivePut_nil
    · intro id data hm
      rcases List.mem_cons.mp hm with h | h
      · injection h with h1 h2
        subst h2
        simp [countries_closed_lookup env card country]
      · simp at h

/-- The whole country board run never emits an archival `PUT`. -/
theorem countriesProcess_noArchivePut (env : Env)
    (cards : List (String × CCard)) :
    ∀ (countries : List Country),
    noArchivePut (countriesProcess env cards countries) := by
  intro countries
  induction countries with
  | nil => exact noArchivePut_nil
  | cons c rest ih =>
    simp only [countriesProcess]
    split
    · exact noArchivePut_append (countriesUpdateCard_noArchivePut env _ c) ih
    · exact ih

/-- Membership in the archival phase of the disaster board run: exactly
the open leftover cards sitting in managed lists. -/
theorem mem_archivePhaseD (env : Env) (leftovers : List (String × DCard))
    (id : String) :
    Call.cardUpdate id [("closed", FVal.s "true")] ∈ archivePhaseD env leftovers ↔
    ∃ p ∈ leftovers, p.2.id = id ∧
      (env.lists.map (fun q => q.2.id)).contains p.2.idList = true ∧
      p.2.closed = false := by
  unfold archivePhaseD
  constructor
  · intro h
    obtain ⟨p, hp, hcall⟩ := List.mem_flatMap.mp h
    refine ⟨p, hp, ?_⟩
    split at hcall
    · unfold archiveCard at hcall
      split at hcall
      · rcases List.mem_cons.mp hcall with h2 | h2
        · injection h2 with h3 h4
          exact ⟨h3.symm, by assumption, by assumption⟩
        · simp at h2
      · simp at hcall
    · simp at hcall
  · intro ⟨p, hp, hid, hman, hcl⟩
    apply List.mem_flatMap.mpr
    refine ⟨p, hp, ?_⟩
    rw [if_pos hman]
    unfold archiveCard
    rw [if_pos hcl]
    subst hid
    exact List.mem_singleton.mpr rfl

/-- **C6** (corrected).  For the disaster manager the claim holds: after
all entities are processed, an archival `PUT` is issued for a leftover
matched card exactly when its current list is managed and the card is
still open.  But the claim also says every connector performs this
archival step, and the topic manager function `updateBoard` has no archival
phase at all — no run of it ever emits an archival `PUT` (see also the
counterexample) — and neither has the country manager. -/
theorem C6_archival_only_in_disasters_manager (envD : Env) (ds : List Disaster)
    (board : List DCard) (envT : Env) (topics : List Topic) (boardT : List TCard)
    (envC : Env) (countries : List Country) (boardC : List CCard) :
    (∀ id, Call.cardUpdate id [("closed", FVal.s "true")] ∈
        disastersUpdateBoard envD ds board →
      ∃ p ∈ disastersLeftovers envD ds board, p.2.id = id ∧
        (envD.lists.map (fun q => q.2.id)).contains p.2.idList = true ∧
        p.2.closed = false) ∧
    (∀ p ∈ disastersLeftovers envD ds board,
      (envD.lists.map (fun q => q.2.id)).contains p.2.idList = true →
      p.2.closed = false →
      Call.cardUpdate p.2.id [("closed", FVal.s "true")] ∈
        disastersUpdateBoard envD ds board) ∧
    noArchivePut (topicsUpdateBoard envT topics boardT) ∧
    noArchivePut (countriesUpdateBoard envC countries boardC) := by
  refine ⟨?_, ?_, ?_, ?_⟩
  · intro id hmem
    unfold disastersUpdateBoard at hmem
    rcases List.mem_append.mp hmem with h | h
    · exact absurd (by decide)
        (processDisasters_noArchivePut envD ds (buildCardMapD board) id
          [("closed", FVal.s "true")] h)
    · exact (mem_archivePhaseD envD _ id).mp h
  · intro p hp hman hcl
    unfold disastersUpdateBoard
    apply List.mem_append_right
    exact (mem_archivePhaseD envD _ p.2.id).mpr ⟨p, hp, rfl, hman, hcl⟩
  · exact processTopics_noArchivePut envT topics (buildCardMapT boardT)
  · exact countriesProcess_noArchivePut envC (buildCardMapC boardC) countries

/-- Counterexample for C6 as stated: a topic board holding one matched
leftover card in the managed list `L1` (and an empty upstream topic set)
performs zero calls — in particular the card is not archived, although
the claim requires every connector to archive it. -/
theorem C6_counterexample :
    topicsUpdateBoard sampleEnv []
      [{ id := "c9", name := "T", idList := "L1", desc := "", closed := false,
         pos := JSNum.int 0, labels := [],
         attachments := ["http://reliefweb.int/node/9"] }] = [] ∧
    Call.cardUpdate "c9" [("closed", FVal.s "true")] ∉
      topicsUpdateBoard sampleEnv []
        [{ id := "c9", name := "T", idList := "L1", desc := "", closed := false,
           pos := JSNum.int 0, labels := [],
           attachments := ["http://reliefweb.int/node/9"] }] := by
  decide

/-- Witness for C6: the disaster manager does archive a leftover open
matched card sitting in the managed list `L1`. -/
theorem C6_witness :
    Call.cardUpdate (prepareCardD sampleCardD).id [("closed", FVal.s "true")] ∈
      disastersUpdateBoard sampleEnv [] [sampleCardD] :=
  (C6_archival_only_in_disasters_manager sampleEnv [] [sampleCardD]
    sampleEnv [] [] sampleEnv [] []).2.1
    ("http://reliefweb.int/taxonomy/term/1", prepareCardD sampleCardD)
    (by decide) (by decide) (by decide)

/-- Checklist population emits no card creation, attachment creation or
card update. -/
theorem updateCardChecklistsT_filter_card_calls (env : Env) (card : TCard) (topic : Topic) :
    (updateCardChecklistsT env card topic).2.filter Call.isCardCreate = [] ∧
    (updateCardChecklistsT env card topic).2.filter Call.isAttachmentCreate = [] ∧
    (updateCardChecklistsT env card topic).2.filter Call.isCardUpdate = [] := by
  refine ⟨?_, ?_, ?_⟩ <;>
    · rw [List.filter_eq_nil_iff]
      intro c hc
      have h := updateCardChecklistsT_no_card_calls env card topic c hc
      simp [h.1, h.2.1, h.2.2]

/-- **C8** (corrected).  For an upstream entity with no matched card, the
disaster manager emits exactly a card creation followed by an attachment
creation (no update), and the topic manager likewise (one creation, one
attachment on the canonical URL, zero card updates — its extra calls
populate checklists).  But the claim quantifies over every connector, and
the country manager never creates cards: an unmatched country produces no
call at all (see the counterexample). -/
theorem C8_unmatched_entity_creation (env : Env) (d : Disaster) (topic : Topic)
    (country : Country) :
    disastersUpdateBoard env [d] [] =
      [Call.cardCreate (env.statusList d.status).id "" d.name
        (generateCardDescriptionD env d none) (maxIndex - d.id)
        (String.intercalate "," ((getDisasterLabels env d).map (fun p => p.2))),
       Call.attachmentCreate env.createdCardId d.url] ∧
    ((topicsUpdateBoard env [topic] []).filter Call.isCardCreate).length = 1 ∧
    (topicsUpdateBoard env [topic] []).filter Call.isAttachmentCreate =
      [Call.attachmentCreate env.createdCardId topic.url] ∧
    (topicsUpdateBoard env [topic] []).filter Call.isCardUpdate = [] ∧
    countriesUpdateBoard env [country] [] = [] := by
  have hT : topicsUpdateBoard env [topic] [] =
      topicsCreateCard env (maxIndex - topic.id) topic ++ [] := rfl
  have hfilters := updateCardChecklistsT_filter_card_calls env
    { id := env.createdCardId
      name := topic.title
      idList := (env.statusList topic.status).id
      desc := generateCardDescriptionT "" topic.lastUpdate topic.introduction
      closed := false
      pos := JSNum.int (maxIndex - topic.id)
      labels := [] } topic
  refine ⟨rfl, ?_, ?_, ?_, rfl⟩
  · rw [hT]
    unfold topicsCreateCard
    simp [List.filter_append, Call.isCardCreate, Call.isAttachmentCreate,
      Call.isCardUpdate, hfilters.1, hfilters.2.1, hfilters.2.2]
  · rw [hT]
    unfold topicsCreateCard
    simp [List.filter_append, Call.isCardCreate, Call.isAttachmentCreate,
      Call.isCardUpdate, hfilters.1, hfilters.2.1, hfilters.2.2]
  · rw [hT]
    unfold topicsCreateCard
    simp [List.filter_append, Call.isCardCreate, Call.isAttachmentCreate,
      Call.isCardUpdate, hfilters.1, hfilters.2.1, hfilters.2.2]

/-- Counterexample for C8 as stated: the country manager, given an
unmatched country, emits zero calls — no card creation and no attachment
creation. -/
theorem C8_counterexample :
    countriesUpdateBoard sampleEnv
      [{ id := 1, url := "http://reliefweb.int/taxonomy/term/5", name := "Atlantis",
         status := "ongoing", description := "D" }] [] = [] ∧
    (¬ ∃ c ∈ countriesUpdateBoard sampleEnv
      [{ id := 1, url := "http://reliefweb.int/taxonomy/term/5", name := "Atlantis",
         status := "ongoing", description := "D" }] [],
      c.isCardCreate = true ∨ c.isAttachmentCreate = true) := by
  have h0 : countriesUpdateBoard sampleEnv
      [{ id := 1, url := "http://reliefweb.int/taxonomy/term/5", name := "Atlantis",
         status := "ongoing", description := "D" }] [] = ([] : List Call) := rfl
  refine ⟨h0, ?_⟩
  intro ⟨c, hc, _⟩
  rw [h0] at hc
  simp at hc

end RWTrello
